import Mathlib

/-!
Verification of the strategy-research core of the Bloomberg_terminal
repository against its natural-language specification.

Modelling conventions
---------------------
* Python floats are modelled as rationals (`ℚ`); all arithmetic of the
  verified paths is exact in `ℚ`.
* `math.sqrt` is irrational-valued, so functions that use it take an
  abstract `sqrtQ : ℚ → ℚ` parameter; no verified statement depends on
  the value of `sqrtQ`.
* Python exceptions are modelled with `Except PyErr`; a division whose
  divisor is a runtime value is modelled by `pydiv`, which raises
  `zeroDivisionError` exactly when Python would.
* Seeded `random.Random` instances are modelled by an abstract
  state-passing RNG structure; theorems quantify over the RNG, which
  subsumes quantification over the seed.
-/

namespace Quant

/-- OHLCV candle.  Only the `close` field is read by the verified
components (the Python code reads `candle["close"]` and nothing else on
the paths modelled here), so the other fields are elided. -/
structure Candle where
  close : ℚ
deriving DecidableEq, Repr

/-- Python exception kinds raised by the modelled code. -/
inductive PyErr where
  | valueError (msg : String)
  | keyError (msg : String)
  | zeroDivisionError
  | attributeError (msg : String)
deriving DecidableEq, Repr

/-- Python division: raises `ZeroDivisionError` on a zero divisor. -/
def pydiv (a b : ℚ) : Except PyErr ℚ :=
  if b = 0 then .error .zeroDivisionError else .ok (a / b)

/-- The report dict returned by `Backtester.run`
(src/app/backtester/engine.py line 41).  Its keys are exactly
`final_equity`, `return_pct`, `equity_curve`, `max_drawdown_pct`,
`returns_series`, `volatility_pct`, `sharpe_ratio`; the dict carries no
`calmar_ratio` entry. -/
structure BTReport where
  final_equity : ℚ
  return_pct : ℚ
  equity_curve : List ℚ
  max_drawdown_pct : ℚ
  returns_series : List ℚ
  volatility_pct : ℚ
  sharpe_ratio : ℚ
deriving DecidableEq, Repr

/-- One step of the running peak-to-trough drawdown loop of
`Backtester.run`: update the peak, then the most negative drawdown. -/
def ddStep (acc : ℚ × ℚ) (v : ℚ) : Except PyErr (ℚ × ℚ) := do
  let peak := if v > acc.1 then v else acc.1
  let dd0 ← pydiv (v - peak) peak
  let dd := dd0 * 100
  .ok (peak, if dd < acc.2 then dd else acc.2)

/-- `returns_series[i] = (e_i − e_{i−1}) / e_{i−1}` for the tail of the
equity curve, given the previous equity value. -/
def retsAux (prev : ℚ) : List ℚ → Except PyErr (List ℚ)
  | [] => .ok []
  | e :: rest => do
      let r ← pydiv (e - prev) prev
      let rs ← retsAux e rest
      .ok (r :: rs)

/-- `Backtester.run` (src/app/backtester/engine.py, buy-and-hold mode —
the only mode the source file implements). -/
def Backtester.run (sqrtQ : ℚ → ℚ) (initial_cash : ℚ) (candles : List Candle)
    (transaction_cost_pct : ℚ) (slippage_pct : ℚ) : Except PyErr BTReport :=
  match candles with
  | [] => .error (.valueError "buy_and_hold requires at least 2 candles")
  | [_] => .error (.valueError "buy_and_hold requires at least 2 candles")
  | c0 :: c1 :: rest => do
      let buy_price := c0.close * (1 + slippage_pct / 100)
      let sell_price := ((c1 :: rest).getLast (List.cons_ne_nil _ _)).close *
        (1 - slippage_pct / 100)
      let cash_after_entry_cost := initial_cash * (1 - transaction_cost_pct / 100)
      let shares ← pydiv cash_after_entry_cost buy_price
      let equity_curve := (c0 :: c1 :: rest).map (fun c => shares * c.close)
      let gross_exit := shares * sell_price
      let final_equity := gross_exit * (1 - transaction_cost_pct / 100)
      let ret0 ← pydiv (final_equity - initial_cash) initial_cash
      let return_pct := ret0 * 100
      let dd ← (equity_curve).foldlM ddStep (shares * c0.close, 0)
      let max_drawdown_pct := dd.2
      let tailRets ← retsAux (shares * c0.close) ((c1 :: rest).map (fun c => shares * c.close))
      let returns_series := 0 :: tailRets
      let n : ℚ := (returns_series.length : ℚ)
      let mean_return ← pydiv returns_series.sum n
      let volatility_pct ←
        if n < 2 then .ok (0 : ℚ)
        else do
          let variance ← pydiv ((returns_series.map (fun x => (x - mean_return) ^ 2)).sum) (n - 1)
          .ok (sqrtQ variance * 100)
      let std_dev := volatility_pct / 100
      let sharpe_ratio := if std_dev ≠ 0 then mean_return / std_dev else 0
      .ok {
        final_equity := final_equity
        return_pct := return_pct
        equity_curve := equity_curve
        max_drawdown_pct := max_drawdown_pct
        returns_series := returns_series
        volatility_pct := volatility_pct
        sharpe_ratio := sharpe_ratio
      }

/-- The spec formula for the Calmar ratio
(`calmar_ratio = return_pct / |max_drawdown_pct|`, 0.0 when the drawdown
is 0), stated from the spec because the source report omits the field. -/
def calmar_ratio_spec (return_pct max_drawdown_pct : ℚ) : ℚ :=
  if max_drawdown_pct = 0 then 0 else return_pct / |max_drawdown_pct|

/-! ## Execution primitives (src/execution) -/

/-- Order side (`BUY`/`SELL` string constants of src/execution/order.py). -/
inductive Side where
  | buy
  | sell
deriving DecidableEq, Repr

/-- Per-candle strategy signal (`"BUY" | "SELL" | "HOLD"`). -/
inductive Signal where
  | buy
  | sell
  | hold
deriving DecidableEq, Repr

/-- Immutable `Order` (src/execution/order.py).  The opaque `uuid4` id
and the optional timestamp label are elided: the verified paths never
branch on them. -/
structure Order where
  side : Side
  quantity : ℚ
  price : ℚ
deriving DecidableEq, Repr

/-- Immutable `Fill` (src/execution/order.py); `order_id` elided with
the order id. -/
structure Fill where
  side : Side
  quantity : ℚ
  price : ℚ
  cash_change : ℚ
  position_change : ℚ
deriving DecidableEq, Repr

/-- `PaperBroker` state (src/execution/paper_broker.py). -/
structure PaperBroker where
  cash : ℚ
  position_size : ℚ
  slippage_pct : ℚ
deriving DecidableEq, Repr

/-- `PaperBroker.execute_order`.  The returned broker is the state of
the Python object after the call: the insufficient-funds and
insufficient-position checks precede every mutation in the source, so
the error cases return the input state unchanged. -/
def PaperBroker.execute_order (b : PaperBroker) (o : Order) :
    PaperBroker × Except PyErr Fill :=
  match o.side with
  | .buy =>
      let execution_price := o.price * (1 + b.slippage_pct)
      let cost := execution_price * o.quantity
      if cost > b.cash then (b, .error (.valueError "Insufficient funds"))
      else
        ({ b with cash := b.cash - cost, position_size := b.position_size + o.quantity },
         .ok { side := .buy, quantity := o.quantity, price := execution_price,
               cash_change := -cost, position_change := o.quantity })
  | .sell =>
      if o.quantity > b.position_size then
        (b, .error (.valueError "Insufficient position"))
      else
        let execution_price := o.price * (1 - b.slippage_pct)
        let proceeds := execution_price * o.quantity
        ({ b with cash := b.cash + proceeds, position_size := b.position_size - o.quantity },
         .ok { side := .sell, quantity := o.quantity, price := execution_price,
               cash_change := proceeds, position_change := -o.quantity })

/-- `RiskManager` (src/execution/risk_manager.py). -/
structure RiskManager where
  max_position_pct : ℚ
deriving DecidableEq, Repr

/-- `RiskManager.adjust_order`. -/
def RiskManager.adjust_order (rm : RiskManager) (order : Order) (equity : ℚ) :
    Except PyErr Order :=
  if equity < 0 then .error (.valueError "equity must be nonnegative")
  else if order.side ≠ .buy then .ok order
  else
    let max_value := equity * rm.max_position_pct
    let max_quantity := if order.price > 0 then max_value / order.price else 0
    let adjusted_qty := min order.quantity max_quantity
    if adjusted_qty ≥ order.quantity then .ok order
    else .ok { order with quantity := adjusted_qty }

/-- A strategy class: a name (`cls.__name__`), an initial internal state
(the no-argument constructor) and the stateful
`generate_signal(candle)` method. -/
structure Strategy (S : Type) where
  name : String
  init : S
  generate_signal : S → Candle → Signal × S

/-- Gateway position state (`"FLAT" | "LONG"`). -/
inductive GwPos where
  | FLAT
  | LONG
deriving DecidableEq, Repr

/-- One entry of the gateway trade history. -/
structure TradeRec where
  type : Side
  price : ℚ
  shares : ℚ
  cash_after : ℚ
deriving DecidableEq, Repr

/-- `ExecutionGateway` state (src/execution/execution_gateway.py); the
gateway owns its strategy instance state and holds its broker. -/
structure ExecutionGateway (S : Type) where
  strat : S
  broker : PaperBroker
  state : GwPos
  current_price : ℚ
  equity_curve : List ℚ
  trade_history : List TradeRec
deriving DecidableEq, Repr

/-- Mark-to-market equity at *price* (`ExecutionGateway._equity`). -/
def ExecutionGateway.equityAt (g : ExecutionGateway S) (price : ℚ) : ℚ :=
  g.broker.cash + g.broker.position_size * price

/-- `ExecutionGateway.on_candle`.  The `Candle` model always carries
`close`, so the `MissingField`/`KeyError` check of the source is
vacuously passed here. -/
def ExecutionGateway.on_candle (gen : S → Candle → Signal × S) (rm : Option RiskManager)
    (g0 : ExecutionGateway S) (candle : Candle) : Except PyErr (ExecutionGateway S) := do
  let price := candle.close
  let (signal, strat) := gen g0.strat candle
  let g := { g0 with strat := strat, current_price := price }
  let g' ←
    match signal, g.state with
    | .buy, .FLAT => do
        -- All-in: buy as many shares as cash allows
        let quantity ← pydiv g.broker.cash price
        let order : Order := { side := .buy, quantity := quantity, price := price }
        let order ←
          match rm with
          | some r => r.adjust_order order (g.equityAt price)
          | none => .ok order
        let (b, res) := g.broker.execute_order order
        match res with
        | .error e => .error e
        | .ok fill =>
            .ok { g with
                  broker := b,
                  state := .LONG,
                  trade_history := g.trade_history ++
                    [{ type := .buy, price := fill.price, shares := fill.quantity,
                       cash_after := b.cash }] }
    | .sell, .LONG =>
        let quantity := g.broker.position_size
        let order : Order := { side := .sell, quantity := quantity, price := price }
        let (b, res) := g.broker.execute_order order
        match res with
        | .error e => .error e
        | .ok fill =>
            .ok { g with
                  broker := b,
                  state := .FLAT,
                  trade_history := g.trade_history ++
                    [{ type := .sell, price := fill.price, shares := fill.quantity,
                       cash_after := b.cash }] }
    | _, _ => .ok g
  .ok { g' with equity_curve := g'.equity_curve ++ [g'.equityAt price] }

/-! ## Portfolio engine (src/execution/portfolio_engine.py) -/

/-- Per-strategy sub-report of `PortfolioEngine.run`. -/
structure StratReport where
  cash : ℚ
  position_size : ℚ
  equity : ℚ
  trade_history : List TradeRec
deriving DecidableEq, Repr

/-- Report dict of `PortfolioEngine.run`. -/
structure PEReport where
  portfolio_equity : ℚ
  portfolio_equity_curve : List ℚ
  strategies : List (String × StratReport)
deriving DecidableEq, Repr

/-- `PortfolioEngine` state: one broker + gateway per strategy (kept
zipped with its strategy class), the aggregated curve and the last seen
price. -/
structure PortfolioEngine (S : Type) where
  gateways : List (Strategy S × ExecutionGateway S)
  initial_capital : ℚ
  risk_manager : Option RiskManager
  portfolio_equity_curve : List ℚ
  last_price : ℚ

/-- `PortfolioEngine.__init__`: validates, splits capital equally and
builds one `PaperBroker` (default slippage 0) plus one gateway per
strategy.  The `allocation` argument is always `"equal"` at every call
site modelled here, so the unequal-allocation `ValueError` branch is
elided. -/
def PortfolioEngine.init (strategies : List (Strategy S)) (initial_capital : ℚ)
    (risk_manager : Option RiskManager) : Except PyErr (PortfolioEngine S) :=
  if strategies.isEmpty then .error (.valueError "strategies must not be empty")
  else if initial_capital ≤ 0 then .error (.valueError "initial_capital must be positive")
  else
    let capital_per := initial_capital / (strategies.length : ℚ)
    .ok { gateways := strategies.map (fun st =>
            (st, { strat := st.init,
                   broker := { cash := capital_per, position_size := 0, slippage_pct := 0 },
                   state := .FLAT, current_price := 0,
                   equity_curve := [], trade_history := [] })),
          initial_capital := initial_capital,
          risk_manager := risk_manager,
          portfolio_equity_curve := [],
          last_price := 0 }

/-- One candle of the `PortfolioEngine.run` loop: feed the candle to
every gateway, then append the summed mark-to-market equity. -/
def PortfolioEngine.stepCandle (pe : PortfolioEngine S) (candle : Candle) :
    Except PyErr (PortfolioEngine S) := do
  let price := candle.close
  let gws ← pe.gateways.mapM (fun p => do
      let gw ← ExecutionGateway.on_candle p.1.generate_signal pe.risk_manager p.2 candle
      pure (p.1, gw))
  let step_equity := (gws.map (fun p => p.2.broker.cash + p.2.broker.position_size * price)).sum
  .ok { pe with
        gateways := gws,
        last_price := price,
        portfolio_equity_curve := pe.portfolio_equity_curve ++ [step_equity] }

/-- `PortfolioEngine.run`: resets only the aggregated curve, then folds
the candles over the persistent gateways/brokers and builds the report.
The post-run engine state is returned alongside the report because the
Python method mutates `self`. -/
def PortfolioEngine.run (pe0 : PortfolioEngine S) (candles : List Candle) :
    Except PyErr (PEReport × PortfolioEngine S) := do
  let pe ← candles.foldlM PortfolioEngine.stepCandle
    { pe0 with portfolio_equity_curve := [] }
  let portfolio_equity :=
    (pe.gateways.map (fun p => p.2.broker.cash + p.2.broker.position_size * pe.last_price)).sum
  let strategies_state := pe.gateways.map (fun p =>
      (p.1.name,
       ({ cash := p.2.broker.cash, position_size := p.2.broker.position_size,
          equity := p.2.broker.cash + p.2.broker.position_size * p.2.current_price,
          trade_history := p.2.trade_history } : StratReport)))
  .ok ({ portfolio_equity := portfolio_equity,
         portfolio_equity_curve := pe.portfolio_equity_curve,
         strategies := strategies_state }, pe)

/-! ## Capital allocator, decay detector, rebalance policy
(src/execution/capital_allocator.py, decay_detector.py,
rebalance_policy.py) -/

/-- Allocation mode (the validated `_VALID_MODES` string set). -/
inductive AllocMode where
  | equal
  | sharpe
  | robustness
deriving DecidableEq, Repr

/-- The fields of one `StrategyRankingEngine.run()` entry that the
allocator, decay detector and lifecycle manager read:
`strategy_name`, `backtest.sharpe_ratio` (flattened) and `robustness`. -/
structure RankEntry where
  strategy_name : String
  sharpe_ratio : ℚ
  robustness : ℚ
deriving DecidableEq, Repr

/-- Python dict with `String` keys and `ℚ` values, as an
insertion-ordered association list. -/
abbrev PyDict := List (String × ℚ)

/-- Python dict assignment `d[k] = v`: updates in place if the key
exists, else appends. -/
def dinsert : PyDict → String → ℚ → PyDict
  | [], k, v => [(k, v)]
  | (k', v') :: rest, k, v =>
      if k' = k then (k', v) :: rest else (k', v') :: dinsert rest k v

/-- Python dict lookup `d.get(k)`. -/
def dget? : PyDict → String → Option ℚ
  | [], _ => none
  | (k', v') :: rest, k => if k' = k then some v' else dget? rest k

/-- Python `d.values()`. -/
def dvalues (d : PyDict) : List ℚ := d.map Prod.snd

/-- `CapitalAllocator._equal_weights`. -/
def CapitalAllocator.equal_weights (results : List RankEntry) : PyDict :=
  results.foldl (fun d r => dinsert d r.strategy_name (1 / (results.length : ℚ))) []

/-- Common body of `CapitalAllocator._sharpe_weights` and
`CapitalAllocator._robustness_weights`, which are syntactically
identical in the source up to the metric read from each entry. -/
def CapitalAllocator.metric_weights (metric : RankEntry → ℚ) (results : List RankEntry) :
    PyDict :=
  let metrics := results.foldl (fun d r => dinsert d r.strategy_name (metric r)) []
  let positive := metrics.filter (fun p => 0 < p.2)
  if positive.isEmpty then
    results.foldl (fun d r => dinsert d r.strategy_name (1 / (results.length : ℚ))) []
  else
    let total := (dvalues positive).sum
    results.foldl (fun d r => dinsert d r.strategy_name
      (match dget? positive r.strategy_name with
       | some v => v / total
       | none => 0)) []

/-- `CapitalAllocator._sharpe_weights`. -/
def CapitalAllocator.sharpe_weights : List RankEntry → PyDict :=
  CapitalAllocator.metric_weights (fun r => r.sharpe_ratio)

/-- `CapitalAllocator._robustness_weights`. -/
def CapitalAllocator.robustness_weights : List RankEntry → PyDict :=
  CapitalAllocator.metric_weights (fun r => r.robustness)

/-- `CapitalAllocator.compute_weights`. -/
def CapitalAllocator.compute_weights (mode : AllocMode) (ranking_results : List RankEntry) :
    Except PyErr PyDict :=
  if ranking_results.isEmpty then .error (.valueError "ranking_results must not be empty")
  else match mode with
    | .equal => .ok (CapitalAllocator.equal_weights ranking_results)
    | .sharpe => .ok (CapitalAllocator.sharpe_weights ranking_results)
    | .robustness => .ok (CapitalAllocator.robustness_weights ranking_results)

/-- Decay metric selector of `PerformanceDecayDetector`. -/
inductive DecayMetric where
  | sharpe
  | robustness
deriving DecidableEq, Repr

/-- `PerformanceDecayDetector` (src/execution/decay_detector.py). -/
structure PerformanceDecayDetector where
  threshold : ℚ
  metric : DecayMetric
deriving DecidableEq, Repr

/-- `PerformanceDecayDetector.is_decayed`: strict `<` comparison. -/
def PerformanceDecayDetector.is_decayed (d : PerformanceDecayDetector) (r : RankEntry) :
    Bool :=
  (match d.metric with
   | .sharpe => r.sharpe_ratio
   | .robustness => r.robustness) < d.threshold

/-- `RebalancePolicy.should_rebalance`: `step % interval == 0`. -/
def RebalancePolicy.should_rebalance (interval : ℕ) (step : ℕ) : Bool :=
  step % interval == 0

/-! ## Portfolio lifecycle manager
(src/execution/portfolio_lifecycle_manager.py) -/

/-- The `current_engine` of `PortfolioLifecycleManager.run`: either the
initial plain `PortfolioEngine` (which has no `step`/`current_equity`
method — calling them raises `AttributeError`) or a
`_WeightedPortfolioEngine` holding its per-strategy engines and the
candle history fed so far. -/
inductive EngineCase (S : Type) where
  | plain : PortfolioEngine S → EngineCase S
  | weighted : List (PortfolioEngine S) → List Candle → EngineCase S

/-- `_WeightedPortfolioEngine.__init__`: one single-strategy
`PortfolioEngine` per strategy with capital `initial_capital * w`;
strategies with non-positive capital are skipped; if none remain, fall
back to equal allocation. -/
def WeightedPortfolioEngine.init (strategies : List (Strategy S)) (weights : PyDict)
    (initial_capital : ℚ) : Except PyErr (EngineCase S) := do
  let engines ← strategies.foldlM (fun (acc : List (PortfolioEngine S)) st => do
      let w := (dget? weights st.name).getD 0
      let capital := initial_capital * w
      if capital > 0 then do
        let e ← PortfolioEngine.init [st] capital none
        pure (acc ++ [e])
      else pure acc) []
  if engines.isEmpty then do
    let n : ℚ := (strategies.length : ℚ)
    let engines ← strategies.mapM (fun st => PortfolioEngine.init [st] (initial_capital / n) none)
    pure (.weighted engines [])
  else pure (.weighted engines [])

/-- `step(candle)`: a plain `PortfolioEngine` has no such method
(`AttributeError`); the weighted engine appends the candle to its
history. -/
def EngineCase.step : EngineCase S → Candle → Except PyErr (EngineCase S)
  | .plain _, _ =>
      .error (.attributeError "PortfolioEngine object has no attribute step")
  | .weighted engines history, candle => .ok (.weighted engines (history ++ [candle]))

/-- `current_equity()`: a plain `PortfolioEngine` has no such method;
the weighted engine re-runs every sub-engine on the accumulated candle
history and sums the resulting `portfolio_equity` values.  `run`
mutates each Python engine object, so the post-run engines are kept. -/
def EngineCase.current_equity : EngineCase S → Except PyErr (ℚ × EngineCase S)
  | .plain _ =>
      .error (.attributeError "PortfolioEngine object has no attribute current_equity")
  | .weighted engines history =>
      if history.isEmpty then
        .ok ((engines.map (fun e => e.initial_capital)).sum, .weighted engines history)
      else do
        let (total, engines) ← engines.foldlM
          (fun (acc : ℚ × List (PortfolioEngine S)) e => do
            let (result, e) ← e.run history
            pure (acc.1 + result.portfolio_equity, acc.2 ++ [e]))
          ((0 : ℚ), ([] : List (PortfolioEngine S)))
        .ok (total, .weighted engines history)

/-- Result dict of `PortfolioLifecycleManager.run`. -/
structure LMResult where
  final_portfolio_equity : ℚ
  rebalance_steps : List ℕ
  disabled_strategies : List String
  equity_curve : List ℚ
deriving DecidableEq, Repr

/-- Loop state of `PortfolioLifecycleManager.run`. -/
structure LMState (S : Type) where
  engine : EngineCase S
  active : List (Strategy S)
  disabled_names : List String
  rebalance_steps : List ℕ
  equity_curve : List ℚ

/-- `PortfolioLifecycleManager.run`, with the ranking engine abstracted
as the function `rank` (the constructor takes any object exposing
`run(candles) -> list[dict]`).  Exceptions from `rank` are caught; all
other exceptions propagate. -/
def PortfolioLifecycleManager.run (strategies : List (Strategy S)) (initial_capital : ℚ)
    (rank : List Candle → Except PyErr (List RankEntry)) (mode : AllocMode)
    (interval : ℕ) (decay : Option PerformanceDecayDetector)
    (candles : List Candle) : Except PyErr LMResult :=
  if strategies.isEmpty then .error (.valueError "strategies must not be empty")
  else if initial_capital ≤ 0 then .error (.valueError "initial_capital must be positive")
  else if candles.isEmpty then
    .ok { final_portfolio_equity := initial_capital, rebalance_steps := [],
          disabled_strategies := [], equity_curve := [] }
  else do
    let engine0 ← PortfolioEngine.init strategies initial_capital none
    let final ← candles.enum.foldlM (fun (st : LMState S) (p : ℕ × Candle) => do
        let (step, candle) := p
        let st ←
          if RebalancePolicy.should_rebalance interval step then do
            let st := { st with rebalance_steps := st.rebalance_steps ++ [step] }
            let window := candles.take (step + 1)
            match rank window with
            | .error _ => pure st
            | .ok ranking_results => do
                let disabled :=
                  match decay with
                  | none => st.disabled_names
                  | some d => ranking_results.foldl (fun dis r =>
                      if ¬ dis.contains r.strategy_name ∧ d.is_decayed r then
                        dis ++ [r.strategy_name]
                      else dis) st.disabled_names
                let new_active := strategies.filter (fun s => ¬ disabled.contains s.name)
                let active := if new_active.isEmpty then strategies else new_active
                let active_names := active.map (fun s => s.name)
                let active_results :=
                  ranking_results.filter (fun r => active_names.contains r.strategy_name)
                let weights ←
                  if ¬ active_results.isEmpty then
                    CapitalAllocator.compute_weights mode active_results
                  else
                    pure (active.map (fun s => (s.name, (1 : ℚ) / (active.length : ℚ))))
                let engine ← WeightedPortfolioEngine.init active weights initial_capital
                pure { st with engine := engine, active := active, disabled_names := disabled }
          else pure st
        let engine ← st.engine.step candle
        let (eq, engine) ← engine.current_equity
        pure { st with engine := engine, equity_curve := st.equity_curve ++ [eq] })
      { engine := .plain engine0, active := strategies, disabled_names := [],
        rebalance_steps := [], equity_curve := [] }
    let final_equity := final.equity_curve.getLastD initial_capital
    .ok { final_portfolio_equity := final_equity,
          rebalance_steps := final.rebalance_steps,
          disabled_strategies := final.disabled_names,
          equity_curve := final.equity_curve }

/-! ## Monte Carlo engine (src/research/monte_carlo_engine.py) -/

/-- The isolated `random.Random(seed)` instance, abstracted as a
state-passing structure: `choices` is `rng.choices(population, k)`,
`gauss` is `rng.gauss(mu, sigma)`, `shuffle` is `rng.shuffle(list)`.
Quantifying over an `RNG` subsumes quantifying over the seed. -/
structure RNG (σ : Type) where
  choices : List ℚ → ℕ → σ → List ℚ × σ
  gauss : ℚ → ℚ → σ → ℚ × σ
  shuffle : List ℚ → σ → List ℚ × σ

/-- Per-simulation metrics dict of `_metrics_from_sample`. -/
structure SimMetrics where
  final_equity : ℚ
  return_pct : ℚ
  sharpe_ratio : ℚ
  max_drawdown_pct : ℚ
deriving DecidableEq, Repr

/-- Running peak-to-trough max drawdown over an equity curve, as the
loop of `_metrics_from_sample` (total `ℚ` division; every curve starts
at the validated positive `initial_cash`). -/
def mc_max_drawdown (curve : List ℚ) (start : ℚ) : ℚ :=
  (curve.foldl (fun (acc : ℚ × ℚ) v =>
      let peak := if v > acc.1 then v else acc.1
      let dd := (v - peak) / peak * 100
      (peak, if dd < acc.2 then dd else acc.2)) (start, 0)).2

/-- `_metrics_from_sample(sample, initial_cash)`. -/
def metrics_from_sample (sqrtQ : ℚ → ℚ) (sample : List ℚ) (initial_cash : ℚ) :
    SimMetrics :=
  let curve := sample.scanl (fun eq r => eq * (1 + r)) initial_cash
  let final_equity := sample.foldl (fun eq r => eq * (1 + r)) initial_cash
  let return_pct := (final_equity - initial_cash) / initial_cash * 100
  let ret_series := 0 :: sample
  let m : ℚ := (ret_series.length : ℚ)
  let mean_r := ret_series.sum / m
  let var_r := (ret_series.map (fun x => (x - mean_r) ^ 2)).sum / (m - 1)
  let std_r := sqrtQ var_r
  let sharpe := if std_r ≠ 0 then mean_r / std_r else 0
  { final_equity := final_equity, return_pct := return_pct,
    sharpe_ratio := sharpe, max_drawdown_pct := mc_max_drawdown curve initial_cash }

/-- Aggregate dict of `_aggregate`. -/
structure MCResult where
  simulations_results : List SimMetrics
  mean_sharpe : ℚ
  sharpe_variance : ℚ
  mean_return_pct : ℚ
  probability_of_loss : ℚ
  worst_drawdown : ℚ
deriving DecidableEq, Repr

/-- `_aggregate(sim_results)`.  `min(drawdowns)` raises on an empty
list in Python; the `simulations >= 1` validation makes that
unreachable, and the empty case here returns 0. -/
def mc_aggregate (sim_results : List SimMetrics) : MCResult :=
  let n : ℚ := (sim_results.length : ℚ)
  let sharpes := sim_results.map (fun s => s.sharpe_ratio)
  let returns_p := sim_results.map (fun s => s.return_pct)
  let drawdowns := sim_results.map (fun s => s.max_drawdown_pct)
  let mean_sharpe := sharpes.sum / n
  let sharpe_variance :=
    if 1 < sim_results.length then
      (sharpes.map (fun x => (x - mean_sharpe) ^ 2)).sum / (n - 1)
    else 0
  let mean_return_pct := returns_p.sum / n
  let probability_of_loss := ((returns_p.filter (fun r => r < 0)).length : ℚ) / n
  let worst_drawdown := match drawdowns with
    | [] => 0
    | d :: ds => ds.foldl min d
  { simulations_results := sim_results, mean_sharpe := mean_sharpe,
    sharpe_variance := sharpe_variance, mean_return_pct := mean_return_pct,
    probability_of_loss := probability_of_loss, worst_drawdown := worst_drawdown }

/-- The execution-mode noise loop: for each sampled return, draw a
multiplicative shock only when `shock_std != 0` and an additive
slippage term only when `slippage_std != 0`, threading the RNG state. -/
def applyNoise (rng : RNG σ) (shock_std slippage_std : ℚ) :
    List ℚ → σ → List ℚ × σ
  | [], s => ([], s)
  | r :: rest, s =>
      let rs1 := if shock_std ≠ 0 then
          let (g, s1) := rng.gauss 1 shock_std s
          (r * g, s1)
        else (r, s)
      let rs2 := if slippage_std ≠ 0 then
          let (g, s2) := rng.gauss 0 slippage_std rs1.2
          (rs1.1 - g, s2)
        else rs1
      let rest2 := applyNoise rng shock_std slippage_std rest rs2.2
      (rs2.1 :: rest2.1, rest2.2)

/-- The per-mode simulation loop: run `doSample` once per simulation,
compute metrics, thread the RNG state. -/
def runSims (doSample : σ → List ℚ × σ) (sqrtQ : ℚ → ℚ) (initial_cash : ℚ) :
    ℕ → σ → List SimMetrics × σ
  | 0, s => ([], s)
  | k + 1, s =>
      let sp := doSample s
      let m := metrics_from_sample sqrtQ sp.1 initial_cash
      let rest := runSims doSample sqrtQ initial_cash k sp.2
      (m :: rest.1, rest.2)

/-- Monte Carlo simulation mode (the validated string set
`returns | trades | execution`). -/
inductive MCMode where
  | returns
  | trades
  | execution
deriving DecidableEq, Repr

/-- `MonteCarloEngine.analyze`, including the `__init__` validation of
`initial_cash`; `s0` is the state of the freshly seeded isolated RNG. -/
def MonteCarloEngine.analyze (sqrtQ : ℚ → ℚ) (rng : RNG σ) (s0 : σ) (initial_cash : ℚ)
    (returns_series : Option (List ℚ)) (trades : Option (List ℚ)) (mode : MCMode)
    (simulations : ℕ) (slippage_std shock_std : ℚ) : Except PyErr MCResult :=
  if initial_cash ≤ 0 then .error (.valueError "initial_cash must be positive")
  else if simulations < 1 then .error (.valueError "simulations must be at least 1")
  else if slippage_std < 0 then .error (.valueError "slippage_std must be nonnegative")
  else if shock_std < 0 then .error (.valueError "shock_std must be nonnegative")
  else
    match mode with
    | .returns =>
        match returns_series with
        | none => .error (.valueError "returns_series must have at least 2 elements for mode returns")
        | some rs =>
            if rs.length < 2 then
              .error (.valueError "returns_series must have at least 2 elements for mode returns")
            else
              let n := rs.length
              .ok (mc_aggregate
                (runSims (fun s => rng.choices rs n s) sqrtQ initial_cash simulations s0).1)
    | .trades =>
        match trades with
        | none => .error (.valueError "trades must have at least 2 elements for mode trades")
        | some ts =>
            if ts.length < 2 then
              .error (.valueError "trades must have at least 2 elements for mode trades")
            else
              .ok (mc_aggregate
                (runSims (fun s => rng.shuffle ts s) sqrtQ initial_cash simulations s0).1)
    | .execution =>
        match returns_series with
        | none => .error (.valueError "returns_series must have at least 2 elements for mode execution")
        | some rs =>
            if rs.length < 2 then
              .error (.valueError "returns_series must have at least 2 elements for mode execution")
            else
              let n := rs.length
              .ok (mc_aggregate
                (runSims (fun s =>
                    let sp := rng.choices rs n s
                    applyNoise rng shock_std slippage_std sp.1 sp.2)
                  sqrtQ initial_cash simulations s0).1)

/-! ## Walk-forward engine (src/research/walk_forward_engine.py)

Modelled from the spec where the backtest of one fold is concerned: the
source runs `Backtester(initial_cash).run(slice, strategy=strategy_class())`,
but the signal-driven Backtester variant is not under src (the src
Backtester rejects the `strategy` keyword); per the spec the analytic
outputs of that call remain the §4.1 report contract, so the per-slice
backtest is abstracted as a function `runBT` producing the report
fields read by this engine, and the theorems quantify over it (hence
over every strategy class). -/

/-- The fields of a per-slice `Backtester.run` report read by the
walk-forward, stability and ranking engines. -/
structure SliceReport where
  sharpe_ratio : ℚ
  max_drawdown_pct : ℚ
  return_pct : ℚ
deriving DecidableEq, Repr

/-- One entry of the `windows` list of `walk_forward_analysis`. -/
structure WFWindow where
  train_sharpe : ℚ
  test_sharpe : ℚ
  train_drawdown : ℚ
  test_drawdown : ℚ
  train_return : ℚ
  test_return : ℚ
deriving DecidableEq, Repr

/-- Result dict of `walk_forward_analysis`. -/
structure WFResult where
  windows : List WFWindow
  mean_train_sharpe : ℚ
  mean_test_sharpe : ℚ
  test_sharpe_variance : ℚ
  performance_decay : ℚ
deriving DecidableEq, Repr

/-- The fold at origin `pos`: backtest `candles[pos : pos+T]` and
`candles[pos+T : pos+T+U]` independently (fresh strategy instance and
broker each — `runBT` is a pure function of the slice). -/
def mkWFWindow (runBT : List Candle → SliceReport) (candles : List Candle)
    (train_size test_size pos : ℕ) : WFWindow :=
  let train_slice := (candles.drop pos).take train_size
  let test_slice := (candles.drop (pos + train_size)).take test_size
  let r_train := runBT train_slice
  let r_test := runBT test_slice
  { train_sharpe := r_train.sharpe_ratio, test_sharpe := r_test.sharpe_ratio,
    train_drawdown := r_train.max_drawdown_pct, test_drawdown := r_test.max_drawdown_pct,
    train_return := r_train.return_pct, test_return := r_test.return_pct }

/-- The sliding-window loop: emit the fold at `pos` and advance by
`step_size`, stopping as soon as the test slice is shorter than
`test_size` (`len(test_slice) < U` iff `n < pos + T + U`). -/
def wfLoop (runBT : List Candle → SliceReport) (candles : List Candle)
    (train_size test_size step_size : ℕ) (hT : 0 < train_size) (hS : 0 < step_size)
    (pos : ℕ) : List WFWindow :=
  if candles.length < pos + train_size + test_size then []
  else
    mkWFWindow runBT candles train_size test_size pos ::
      wfLoop runBT candles train_size test_size step_size hT hS (pos + step_size)
termination_by candles.length - pos
decreasing_by
  simp_wf
  omega

/-- `walk_forward_analysis`. -/
def walk_forward_analysis (runBT : List Candle → SliceReport) (candles : List Candle)
    (train_size test_size step_size : ℕ) : Except PyErr WFResult :=
  if hT : train_size < 2 then .error (.valueError "train_size must be at least 2")
  else if hU : test_size < 2 then .error (.valueError "test_size must be at least 2")
  else if hS : step_size < 1 then .error (.valueError "step_size must be at least 1")
  else if candles.length < train_size + test_size then
    .error (.valueError "Dataset too small")
  else
    let windows_out := wfLoop runBT candles train_size test_size step_size
      (by omega) (by omega) 0
    let n : ℚ := (windows_out.length : ℚ)
    let train_sharpes := windows_out.map (fun w => w.train_sharpe)
    let test_sharpes := windows_out.map (fun w => w.test_sharpe)
    let mean_train_sharpe := train_sharpes.sum / n
    let mean_test_sharpe := test_sharpes.sum / n
    let test_sharpe_variance :=
      if 1 < windows_out.length then
        (test_sharpes.map (fun s => (s - mean_test_sharpe) ^ 2)).sum / (n - 1)
      else 0
    .ok { windows := windows_out,
          mean_train_sharpe := mean_train_sharpe,
          mean_test_sharpe := mean_test_sharpe,
          test_sharpe_variance := test_sharpe_variance,
          performance_decay := mean_test_sharpe - mean_train_sharpe }

/-! ## Regime splitter + stability engine
(src/research/regime_splitter.py, stability_engine.py).  The per-window
backtest is abstracted as `runBT` exactly as for the walk-forward
engine (the signal-driven Backtester variant is not under src). -/

/-- The chunking loop of `split_into_time_windows`: sequential
non-overlapping slices of `window_size`; a trailing slice of length 1
is dropped. -/
def splitLoop (candles : List Candle) (window_size : ℕ) (hw : 0 < window_size)
    (start : ℕ) : List (List Candle) :=
  if _h : start < candles.length then
    let slice := (candles.drop start).take window_size
    if 2 ≤ slice.length then
      slice :: splitLoop candles window_size hw (start + window_size)
    else splitLoop candles window_size hw (start + window_size)
  else []
termination_by candles.length - start
decreasing_by
  all_goals simp_wf
  all_goals omega

/-- `split_into_time_windows(candles, window_size)`. -/
def split_into_time_windows (candles : List Candle) (window_size : ℕ) :
    Except PyErr (List (List Candle)) :=
  if hw : window_size < 2 then .error (.valueError "window_size must be at least 2")
  else if candles.length < window_size then .error (.valueError "Not enough candles")
  else .ok (splitLoop candles window_size (by omega) 0)

/-- Result dict of `analyze_strategy` (stability engine). -/
structure StabilityResult where
  regime_metrics : List SliceReport
  mean_sharpe : ℚ
  sharpe_variance : ℚ
  worst_drawdown : ℚ
  stability_score : ℚ
deriving DecidableEq, Repr

/-- `analyze_strategy(strategy_class, candles, window_size)` of the
stability engine.  The two aggregate divisions are by the runtime
values `n` and `n - 1` and are modelled with `pydiv`: the source has no
`n > 1` guard before dividing by `n - 1`. -/
def analyze_strategy (runBT : List Candle → SliceReport) (candles : List Candle)
    (window_size : ℕ) : Except PyErr StabilityResult := do
  let windows ← split_into_time_windows candles window_size
  let regime_metrics := windows.map runBT
  let sharpes := regime_metrics.map (fun m => m.sharpe_ratio)
  let drawdowns := regime_metrics.map (fun m => m.max_drawdown_pct)
  let n : ℚ := (sharpes.length : ℚ)
  let mean_sharpe ← pydiv sharpes.sum n
  let sharpe_variance ← pydiv ((sharpes.map (fun s => (s - mean_sharpe) ^ 2)).sum) (n - 1)
  let worst_drawdown := match drawdowns with
    | [] => 0
    | d :: ds => ds.foldl min d
  let stability_score := mean_sharpe - sharpe_variance - |worst_drawdown| / 100
  .ok { regime_metrics := regime_metrics, mean_sharpe := mean_sharpe,
        sharpe_variance := sharpe_variance, worst_drawdown := worst_drawdown,
        stability_score := stability_score }

/-! ## Genome + mutation engine (src/ai/strategy_genome.py,
mutation_engine.py) -/

/-- A genome dict: the tagged family plus its integer parameters
(`{"type": ..., params...}`). -/
inductive Genome where
  | moving_average (short long : ℤ)
  | rsi (period overbought oversold : ℤ)
  | breakout (window : ℤ)
deriving DecidableEq, Repr

/-- `validate_genome`: bound checks against `GENOME_BOUNDS` in dict
order.  The missing-key and unknown-type errors are unrepresentable in
the tagged model. -/
def validate_genome : Genome → Except PyErr Unit
  | .moving_average short long =>
      if ¬ (2 ≤ short ∧ short ≤ 50) then .error (.valueError "genome short out of bounds")
      else if ¬ (10 ≤ long ∧ long ≤ 200) then .error (.valueError "genome long out of bounds")
      else .ok ()
  | .rsi period overbought oversold =>
      if ¬ (5 ≤ period ∧ period ≤ 30) then .error (.valueError "genome period out of bounds")
      else if ¬ (60 ≤ overbought ∧ overbought ≤ 90) then
        .error (.valueError "genome overbought out of bounds")
      else if ¬ (10 ≤ oversold ∧ oversold ≤ 40) then
        .error (.valueError "genome oversold out of bounds")
      else .ok ()
  | .breakout window =>
      if ¬ (5 ≤ window ∧ window ≤ 60) then .error (.valueError "genome window out of bounds")
      else .ok ()

/-- All parameters inside their `GENOME_BOUNDS` closed intervals. -/
def genome_in_bounds : Genome → Prop
  | .moving_average short long => 2 ≤ short ∧ short ≤ 50 ∧ 10 ≤ long ∧ long ≤ 200
  | .rsi period overbought oversold =>
      5 ≤ period ∧ period ≤ 30 ∧ 60 ≤ overbought ∧ overbought ≤ 90 ∧
        10 ≤ oversold ∧ oversold ≤ 40
  | .breakout window => 5 ≤ window ∧ window ≤ 60

/-- The moving-average invariant `short < long` (vacuous for the other
families). -/
def ma_invariant : Genome → Prop
  | .moving_average short long => short < long
  | _ => True

/-- The seeded `random.Random` of `MutationEngine`: `random()` and
`randint(lo, hi)` as state-passing draws. -/
structure RNGM (σ : Type) where
  random : σ → ℚ × σ
  randint : ℤ → ℤ → σ → ℤ × σ

/-- `rng.randint(lo, hi)` returns an integer in the closed interval
`[lo, hi]` whenever `lo ≤ hi` — the contract of Python
`random.randint`. -/
def RNGM.IntRange (rng : RNGM σ) : Prop :=
  ∀ lo hi s, lo ≤ hi → lo ≤ (rng.randint lo hi s).1 ∧ (rng.randint lo hi s).1 ≤ hi

/-- One iteration of the `mutate` parameter loop
(`for param, (lo, hi) in bounds.items(): if rng.random() < rate:
mutated[param] = rng.randint(lo, hi)`). -/
def resample_param (rng : RNGM σ) (mutation_rate : ℚ) (lo hi : ℤ) (orig : ℤ) (s : σ) :
    ℤ × σ :=
  let c := rng.random s
  if c.1 < mutation_rate then rng.randint lo hi c.2 else (orig, c.2)

/-- The moving-average repair of `mutate`: when `short >= long` after
the loop, resample `short` from its bounds and `long` from
`[max(short + 1, 10), 200]`. -/
def ma_repair (rng : RNGM σ) (short long : ℤ) (s : σ) : Genome × σ :=
  if short ≥ long then
    let q1 := rng.randint 2 50 s
    let q2 := rng.randint (max (q1.1 + 1) 10) 200 q1.2
    (.moving_average q1.1 q2.1, q2.2)
  else (.moving_average short long, s)

/-- `MutationEngine.mutate`: validate, then per bounded parameter (in
dict iteration order) resample with probability `mutation_rate`;
finally repair the moving-average invariant. -/
def MutationEngine.mutate (rng : RNGM σ) (mutation_rate : ℚ) (genome : Genome) (s : σ) :
    Except PyErr (Genome × σ) := do
  let _ ← validate_genome genome
  match genome with
  | .moving_average short long =>
      let p1 := resample_param rng mutation_rate 2 50 short s
      let p2 := resample_param rng mutation_rate 10 200 long p1.2
      .ok (ma_repair rng p1.1 p2.1 p2.2)
  | .rsi period overbought oversold =>
      let p1 := resample_param rng mutation_rate 5 30 period s
      let p2 := resample_param rng mutation_rate 60 90 overbought p1.2
      let p3 := resample_param rng mutation_rate 10 40 oversold p2.2
      .ok (.rsi p1.1 p2.1 p3.1, p3.2)
  | .breakout window =>
      let p1 := resample_param rng mutation_rate 5 60 window s
      .ok (.breakout p1.1, p1.2)

/-! ## Spec-side weight formula (for the allocator refinement claim) -/

/-- The spec's description of metric-proportional weights: weight
proportional to the metric for strictly positive metrics, 0 for the
rest; equal weights when no metric is positive. -/
def specMetricWeights (metric : RankEntry → ℚ) (rs : List RankEntry) : PyDict :=
  if (rs.filter (fun r => 0 < metric r)).isEmpty then
    rs.map (fun r => (r.strategy_name, 1 / (rs.length : ℚ)))
  else
    let total := ((rs.filter (fun r => 0 < metric r)).map metric).sum
    rs.map (fun r =>
      (r.strategy_name, if 0 < metric r then metric r / total else 0))

/-- The spec's weight mapping for each allocator mode. -/
def specWeights (mode : AllocMode) (rs : List RankEntry) : PyDict :=
  match mode with
  | .equal => rs.map (fun r => (r.strategy_name, 1 / (rs.length : ℚ)))
  | .sharpe => specMetricWeights (fun r => r.sharpe_ratio) rs
  | .robustness => specMetricWeights (fun r => r.robustness) rs

/-! ## Concrete fixtures used by the closed theorems -/

/-- A strategy that signals BUY on its first call and HOLD afterwards
(the `AlwaysBuyHold` test strategy of
src/tests/test_portfolio_lifecycle_manager.py). -/
def alwaysBuyHold : Strategy Bool :=
  { name := "AlwaysBuyHold", init := false,
    generate_signal := fun called _ => (if called then .hold else .buy, true) }

/-- A strategy that signals BUY on its first call, SELL on its second
and HOLD afterwards, to make repeated-run state persistence
observable. -/
def buyThenSell : Strategy ℕ :=
  { name := "BuyThenSell", init := 0,
    generate_signal := fun n _ =>
      (if n = 0 then .buy else if n = 1 then .sell else .hold, n + 1) }

/-- Rising closes 100, 110, 120, 130. -/
def c1_candles : List Candle := [⟨100⟩, ⟨110⟩, ⟨120⟩, ⟨130⟩]

/-- A mock ranking engine in the style of `MockRankingEngine` of
src/tests/test_portfolio_lifecycle_manager.py: always succeeds and
reports sharpe 1 and robustness 1 for `AlwaysBuyHold`. -/
def c1_rank : List Candle → Except PyErr (List RankEntry) :=
  fun _ => .ok [{ strategy_name := "AlwaysBuyHold", sharpe_ratio := 1, robustness := 1 }]

/-- Two closes 100, 110. -/
def c9_candles : List Candle := [⟨100⟩, ⟨110⟩]

/-- Construct one `PortfolioEngine` over `buyThenSell` with capital
1000 and call `run` twice over the same candle list, collecting both
reports. -/
def c9_run2 : Except PyErr (PEReport × PEReport) := do
  let e0 ← PortfolioEngine.init [buyThenSell] 1000 none
  let (r1, e1) ← e0.run c9_candles
  let (r2, _) ← e1.run c9_candles
  .ok (r1, r2)

/-- The RNG used by concrete Monte Carlo witnesses: `choices` returns a
prefix, `gauss` returns its mean, `shuffle` is the identity. -/
def constRNG : RNG Unit :=
  { choices := fun l k _ => (l.take k, ()),
    gauss := fun mu _ s => (mu, s),
    shuffle := fun l s => (l, s) }

/-- The RNG used by the concrete mutation witness: `random` returns 0,
`randint lo hi` returns `lo`. -/
def loRNG : RNGM Unit :=
  { random := fun s => (0, s),
    randint := fun lo _ s => (lo, s) }

/-! ## Helper lemmas -/

theorem applyNoise_zero {σ : Type} (rng : RNG σ) (l : List ℚ) (s : σ) :
    applyNoise rng 0 0 l s = (l, s) := by
  induction l generalizing s with
  | nil => simp [applyNoise]
  | cons r rest ih => simp [applyNoise, ih]

theorem resample_param_bounds {σ : Type} (rng : RNGM σ) (hri : rng.IntRange)
    (mutation_rate : ℚ) (lo hi orig : ℤ) (s : σ) (hlohi : lo ≤ hi)
    (horig : lo ≤ orig ∧ orig ≤ hi) :
    lo ≤ (resample_param rng mutation_rate lo hi orig s).1 ∧
      (resample_param rng mutation_rate lo hi orig s).1 ≤ hi := by
  simp only [resample_param]
  split
  · exact hri lo hi _ hlohi
  · exact horig

theorem ma_repair_ok {σ : Type} (rng : RNGM σ) (hri : rng.IntRange) (short long : ℤ)
    (s : σ) (hshort : 2 ≤ short ∧ short ≤ 50) (hlong : 10 ≤ long ∧ long ≤ 200) :
    genome_in_bounds (ma_repair rng short long s).1 ∧
      ma_invariant (ma_repair rng short long s).1 := by
  simp only [ma_repair]
  split
  · obtain ⟨hq1a, hq1b⟩ := hri 2 50 s (by omega)
    obtain ⟨hq2a, hq2b⟩ :=
      hri (max ((rng.randint 2 50 s).1 + 1) 10) 200 (rng.randint 2 50 s).2 (by omega)
    simp only [genome_in_bounds, ma_invariant]
    omega
  · simp only [genome_in_bounds, ma_invariant]
    omega

theorem exec_buy_preserve (cash pos qty price : ℚ)
    (hprice : 0 < price) (hq : qty ≤ cash / price) :
    PaperBroker.execute_order ⟨cash, pos, 0⟩ { side := .buy, quantity := qty, price := price } =
      ({ cash := cash - price * (1 + 0) * qty, position_size := pos + qty, slippage_pct := 0 },
       .ok { side := .buy, quantity := qty, price := price * (1 + 0),
             cash_change := -(price * (1 + 0) * qty), position_change := qty }) ∧
    (cash - price * (1 + 0) * qty) + (pos + qty) * price = cash + pos * price := by
  have hcost : price * (1 + 0) * qty ≤ cash := by
    have h2 : qty * price ≤ cash := (le_div_iff₀ hprice).mp hq
    calc price * (1 + 0) * qty = qty * price := by ring
    _ ≤ cash := h2
  constructor
  · simp only [PaperBroker.execute_order, if_neg (not_lt.mpr hcost)]
  · ring

theorem wfLoop_eq_map (runBT : List Candle → SliceReport) (candles : List Candle)
    (T U S : ℕ) (hT : 0 < T) (hS : 0 < S) :
    ∀ m pos, candles.length - pos ≤ m → pos + T + U ≤ candles.length →
      wfLoop runBT candles T U S hT hS pos =
        (List.range ((candles.length - (pos + T + U)) / S + 1)).map
          (fun k => mkWFWindow runBT candles T U (pos + k * S)) := by
  intro m
  induction m with
  | zero =>
      intro pos hm hle
      exfalso
      omega
  | succ m ih =>
      intro pos hm hle
      rw [wfLoop, if_neg (by omega)]
      by_cases h2 : pos + S + T + U ≤ candles.length
      · rw [ih (pos + S) (by omega) (by omega)]
        have harith : (candles.length - (pos + T + U)) / S
            = (candles.length - (pos + S + T + U)) / S + 1 := by
          have hba : S ≤ candles.length - (pos + T + U) := by omega
          rw [Nat.div_eq_sub_div hS hba]
          congr 2
          omega
        rw [harith,
          List.range_succ_eq_map ((candles.length - (pos + S + T + U)) / S + 1),
          List.map_cons, List.map_map]
        congr 1
        · congr 1
          omega
        · congr 1
          funext k
          simp only [Function.comp]
          congr 1
          rw [Nat.succ_mul]
          omega
      · rw [wfLoop, if_pos (by omega)]
        rw [Nat.div_eq_of_lt (by omega)]
        have h1 : List.range 1 = [0] := rfl
        rw [h1, List.map_cons, List.map_nil]
        congr 2
        omega

theorem dinsert_not_mem : ∀ (d : PyDict) (k : String) (v : ℚ),
    k ∉ d.map Prod.fst → dinsert d k v = d ++ [(k, v)] := by
  intro d
  induction d with
  | nil => intro k v _; rfl
  | cons p rest ih =>
      intro k v h
      simp only [List.map_cons, List.mem_cons, not_or] at h
      rw [dinsert, if_neg (Ne.symm h.1), ih k v h.2]
      rfl

theorem foldl_dinsert (f : RankEntry → ℚ) :
    ∀ (rs : List RankEntry) (d : PyDict),
      (d.map Prod.fst ++ rs.map (fun r => r.strategy_name)).Nodup →
      rs.foldl (fun d r => dinsert d r.strategy_name (f r)) d
        = d ++ rs.map (fun r => (r.strategy_name, f r)) := by
  intro rs
  induction rs with
  | nil => intro d _; simp
  | cons a tl ih =>
      intro d h
      have hnotin : a.strategy_name ∉ d.map Prod.fst := by
        have hd := List.disjoint_of_nodup_append h
        intro hmem
        exact hd hmem (by simp)
      simp only [List.foldl_cons]
      rw [dinsert_not_mem d _ _ hnotin]
      rw [ih (d ++ [(a.strategy_name, f a)]) (by
        simp only [List.map_append, List.map_cons, List.map_nil] at h ⊢
        simpa [List.append_assoc] using h)]
      simp

theorem dget?_eq_none : ∀ (d : PyDict) (k : String),
    k ∉ d.map Prod.fst → dget? d k = none := by
  intro d
  induction d with
  | nil => intro k _; rfl
  | cons p rest ih =>
      intro k h
      simp only [List.map_cons, List.mem_cons, not_or] at h
      rw [dget?, if_neg (Ne.symm h.1)]
      exact ih k h.2

theorem filter_map_eq {α β : Type} (f : α → β) (p : β → Bool) :
    ∀ l : List α, (l.map f).filter p = (l.filter (fun a => p (f a))).map f := by
  intro l
  induction l with
  | nil => rfl
  | cons a tl ih =>
      simp only [List.map_cons, List.filter_cons]
      by_cases h : p (f a) <;> simp [h, ih]

theorem dget?_pos_filter (f : RankEntry → ℚ) :
    ∀ (rs : List RankEntry), (rs.map (fun r => r.strategy_name)).Nodup →
      ∀ r ∈ rs,
        dget? ((rs.map (fun x => (x.strategy_name, f x))).filter (fun p => 0 < p.2))
            r.strategy_name
          = if 0 < f r then some (f r) else none := by
  intro rs
  induction rs with
  | nil => intro _ r hr; cases hr
  | cons a tl ih =>
      intro hnd r hr
      rw [List.map_cons, List.nodup_cons] at hnd
      have hanotin := hnd.1
      have hnd' := hnd.2
      rcases List.mem_cons.mp hr with hra | hrtl
      · subst hra
        by_cases hpos : 0 < f r
        · simp [List.filter_cons, hpos, dget?]
        · simp only [List.map_cons, List.filter_cons]
          rw [if_neg (by simpa using hpos), if_neg hpos]
          apply dget?_eq_none
          intro hmem
          obtain ⟨pr, hpr, hfst⟩ := List.mem_map.mp hmem
          have hpr2 : pr ∈ tl.map (fun x => (x.strategy_name, f x)) :=
            List.mem_of_mem_filter hpr
          obtain ⟨x, hx, hpx⟩ := List.mem_map.mp hpr2
          apply hanotin
          rw [← hfst, ← hpx]
          exact List.mem_map_of_mem _ hx
      · have hnames : a.strategy_name ≠ r.strategy_name := by
          intro he
          exact hanotin (he ▸ List.mem_map_of_mem _ hrtl)
        simp only [List.map_cons, List.filter_cons]
        by_cases hpa : 0 < f a
        · rw [if_pos (by simpa using hpa), dget?, if_neg hnames]
          exact ih hnd' r hrtl
        · rw [if_neg (by simpa using hpa)]
          exact ih hnd' r hrtl

theorem sum_map_ite_div (f : RankEntry → ℚ) (total : ℚ) :
    ∀ rs : List RankEntry,
      (rs.map (fun r => if 0 < f r then f r / total else 0)).sum
        = ((rs.filter (fun r => 0 < f r)).map f).sum / total := by
  intro rs
  induction rs with
  | nil => simp
  | cons a tl ih =>
      simp only [List.map_cons, List.sum_cons, List.filter_cons]
      by_cases h : 0 < f a
      · rw [if_pos h, if_pos (by simpa using h)]
        simp only [List.map_cons, List.sum_cons]
        rw [ih, div_add_div_same]
      · rw [if_neg h, if_neg (by simpa using h), ih, zero_add]

theorem sum_map_const (c : ℚ) : ∀ rs : List RankEntry,
    (rs.map (fun _ => c)).sum = rs.length * c := by
  intro rs
  induction rs with
  | nil => simp
  | cons a tl ih =>
      simp only [List.map_cons, List.sum_cons, List.length_cons, ih]
      push_cast
      ring

theorem c6_metric (metric : RankEntry → ℚ) (rs : List RankEntry) (hne : rs ≠ [])
    (hnd : (rs.map (fun r => r.strategy_name)).Nodup) :
    CapitalAllocator.metric_weights metric rs = specMetricWeights metric rs ∧
    (dvalues (specMetricWeights metric rs)).sum = 1 := by
  have hlenQ : (rs.length : ℚ) ≠ 0 := by
    simpa using fun h => hne (List.length_eq_zero.mp h)
  have hfold : ∀ f : RankEntry → ℚ,
      rs.foldl (fun d r => dinsert d r.strategy_name (f r)) []
        = rs.map (fun r => (r.strategy_name, f r)) := by
    intro f
    simpa using foldl_dinsert f rs [] (by simpa using hnd)
  have hposfilter :
      (rs.map (fun x => (x.strategy_name, metric x))).filter (fun p => 0 < p.2)
        = (rs.filter (fun r => 0 < metric r)).map (fun x => (x.strategy_name, metric x)) := by
    simpa using filter_map_eq (fun x : RankEntry => (x.strategy_name, metric x))
      (fun p => decide (0 < p.2)) rs
  by_cases hempty : (rs.filter (fun r => 0 < metric r)).isEmpty
  · constructor
    · rw [CapitalAllocator.metric_weights]
      simp only [hfold, hposfilter]
      rw [if_pos (by simpa using hempty)]
      rw [specMetricWeights, if_pos hempty]
    · rw [specMetricWeights, if_pos hempty]
      simp only [dvalues, List.map_map, Function.comp_def]
      rw [sum_map_const]
      field_simp
  · have hfne : (rs.filter (fun r => 0 < metric r)) ≠ [] := by
      simpa [List.isEmpty_iff] using hempty
    have htotal_pos : 0 < ((rs.filter (fun r => 0 < metric r)).map metric).sum := by
      apply List.sum_pos
      · intro x hx
        obtain ⟨r, hr, hrx⟩ := List.mem_map.mp hx
        have := List.of_mem_filter hr
        simp only [decide_eq_true_eq] at this
        exact hrx ▸ this
      · simpa using hfne
    have htne : ((rs.filter (fun r => 0 < metric r)).map metric).sum ≠ 0 :=
      ne_of_gt htotal_pos
    constructor
    · rw [CapitalAllocator.metric_weights]
      simp only [hfold, hposfilter]
      rw [if_neg (by simpa [List.isEmpty_iff] using hfne)]
      rw [specMetricWeights, if_neg hempty]
      apply List.map_congr_left
      intro r hr
      have hget := dget?_pos_filter metric rs hnd r hr
      rw [hposfilter] at hget
      rw [hget]
      by_cases hpr : 0 < metric r
      · simp [hpr, dvalues, List.map_map, Function.comp_def]
      · simp [hpr, dvalues, List.map_map, Function.comp_def]
    · rw [specMetricWeights, if_neg hempty]
      simp only [dvalues, List.map_map, Function.comp_def]
      rw [sum_map_ite_div]
      exact div_self htne

/-! ## Claim theorems -/

/-- Claim C1 (code bug): the spec (and the intent documented in the
repository's own lifecycle tests, "Capital roll-forward fix: equity
never resets to initial_capital") requires each segment after the first
to be funded from the previous segment's last equity, but
`PortfolioLifecycleManager.run` funds every post-rebalance
`_WeightedPortfolioEngine` from `self._initial_capital`.  With one
`AlwaysBuyHold` strategy, closes 100, 110, 120, 130, capital 1000,
rebalance interval 3 and an always-succeeding mock ranking engine, the
equity curve is [1000, 1100, 1200, 1000]: at the step-3 rebalance the
portfolio restarts at 1000 instead of rolling the 1200 forward. -/
theorem c1_lifecycle_capital_resets_to_initial :
    PortfolioLifecycleManager.run [alwaysBuyHold] 1000 c1_rank .equal 3 none c1_candles =
      .ok { final_portfolio_equity := 1000, rebalance_steps := [0, 3],
            disabled_strategies := [], equity_curve := [1000, 1100, 1200, 1000] } := by
  norm_num [PortfolioLifecycleManager.run, c1_rank, c1_candles, alwaysBuyHold,
    RebalancePolicy.should_rebalance, WeightedPortfolioEngine.init,
    EngineCase.step, EngineCase.current_equity,
    CapitalAllocator.compute_weights, CapitalAllocator.equal_weights, dinsert, dget?,
    PortfolioEngine.init, PortfolioEngine.run, PortfolioEngine.stepCandle,
    ExecutionGateway.on_candle, ExecutionGateway.equityAt, PaperBroker.execute_order,
    pydiv, List.foldlM, List.mapM, List.mapM.loop, List.enum, List.enumFrom,
    Except.bind, Except.pure, bind, pure]

/-- Claim C2 (code bug): the claim says the backtester report carries
`calmar_ratio = return_pct / abs(max_drawdown_pct)` and that for closes
[100, 120, 90, 130] with initial cash 1000 it equals 1.2.  The report
dict of `Backtester.run` (`BTReport`) has no `calmar_ratio` key at all;
on that input the code yields `return_pct = 30`,
`max_drawdown_pct = -25` and equity curve [1000, 1200, 900, 1300], and
the spec formula applied to those fields would indeed give 6/5 = 1.2. -/
theorem c2_backtester_drawdown_scenario_report (sqrtQ : ℚ → ℚ) :
    (Backtester.run sqrtQ 1000 [⟨100⟩, ⟨120⟩, ⟨90⟩, ⟨130⟩] 0 0).map
      (fun r => (r.return_pct, r.max_drawdown_pct, r.equity_curve,
        calmar_ratio_spec r.return_pct r.max_drawdown_pct)) =
    .ok (30, -25, [1000, 1200, 900, 1300], 6/5) := by
  norm_num [Backtester.run, pydiv, ddStep, retsAux, calmar_ratio_spec,
    List.getLast, Except.map, Except.bind, Except.pure, bind, pure, List.foldlM]

/-- Claim C3: for every per-slice backtest function (hence every
strategy class) and every candle list holding at least
`train_size + test_size` candles with `train_size >= 2`,
`test_size >= 2`, `step_size >= 1`, `walk_forward_analysis` succeeds,
its `performance_decay` equals `mean_test_sharpe - mean_train_sharpe`,
its folds are exactly the windows at origins 0, S, 2S, ... while the
test slice is complete, and a single fold gives
`test_sharpe_variance = 0`. -/
theorem c3_walk_forward_decay_and_folds (runBT : List Candle → SliceReport)
    (candles : List Candle) (T U S : ℕ) (hT : 2 ≤ T) (hU : 2 ≤ U) (hS : 1 ≤ S)
    (hlen : T + U ≤ candles.length) :
    ∃ r, walk_forward_analysis runBT candles T U S = .ok r ∧
      r.performance_decay = r.mean_test_sharpe - r.mean_train_sharpe ∧
      r.windows = (List.range ((candles.length - (T + U)) / S + 1)).map
        (fun k => mkWFWindow runBT candles T U (k * S)) ∧
      (r.windows.length = 1 → r.test_sharpe_variance = 0) := by
  rw [walk_forward_analysis]
  rw [dif_neg (by omega), dif_neg (by omega), dif_neg (by omega), if_neg (by omega)]
  have hwin := wfLoop_eq_map runBT candles T U S (by omega) (by omega)
    candles.length 0 (by omega) (by omega)
  refine ⟨_, rfl, rfl, ?_, ?_⟩
  · simp only
    simpa using hwin
  · intro hlen1
    simp only at hlen1 ⊢
    rw [if_neg (by omega)]

/-- Witness for C3 at `runBT` constant, closes [1, 1, 1, 1],
train 2, test 2, step 1. -/
theorem c3_walk_forward_witness :
    ∃ r, walk_forward_analysis (fun _ => ⟨0, 0, 0⟩) [⟨1⟩, ⟨1⟩, ⟨1⟩, ⟨1⟩] 2 2 1 = .ok r ∧
      r.performance_decay = r.mean_test_sharpe - r.mean_train_sharpe ∧
      r.windows = (List.range ((([⟨1⟩, ⟨1⟩, ⟨1⟩, ⟨1⟩] : List Candle).length - (2 + 2)) / 1 + 1)).map
        (fun k => mkWFWindow (fun _ => ⟨0, 0, 0⟩) [⟨1⟩, ⟨1⟩, ⟨1⟩, ⟨1⟩] 2 2 (k * 1)) ∧
      (r.windows.length = 1 → r.test_sharpe_variance = 0) :=
  c3_walk_forward_decay_and_folds (fun _ => ⟨0, 0, 0⟩) [⟨1⟩, ⟨1⟩, ⟨1⟩, ⟨1⟩] 2 2 1
    (by decide) (by decide) (by decide) (by decide)

/-- Claim C4: for every RNG (hence every seed), every returns series of
length at least 2 and every simulations count at least 1,
`MonteCarloEngine.analyze` in execution mode with
`slippage_std = shock_std = 0` returns exactly the same per-simulation
results and aggregates as returns mode: with both stds zero the noise
loop performs no gauss draws, so the RNG stream and every sample are
identical. -/
theorem c4_execution_zero_noise_equals_returns {σ : Type} (sqrtQ : ℚ → ℚ)
    (rng : RNG σ) (s0 : σ) (initial_cash : ℚ) (rs : List ℚ) (sims : ℕ)
    (hcash : 0 < initial_cash) (hlen : 2 ≤ rs.length) (hsims : 1 ≤ sims) :
    MonteCarloEngine.analyze sqrtQ rng s0 initial_cash (some rs) none .execution sims 0 0 =
      MonteCarloEngine.analyze sqrtQ rng s0 initial_cash (some rs) none .returns sims 0 0 := by
  have h1 : ¬ (initial_cash ≤ 0) := not_le.mpr hcash
  have h2 : ¬ (sims < 1) := by omega
  have h3 : ¬ ((0 : ℚ) < 0) := by norm_num
  have h4 : ¬ (rs.length < 2) := by omega
  have hfn : (fun s => let sp := rng.choices rs rs.length s
      applyNoise rng 0 0 sp.1 sp.2) = (fun s => rng.choices rs rs.length s) := by
    funext s
    simp [applyNoise_zero]
  simp only [MonteCarloEngine.analyze, if_neg h1, if_neg h2, if_neg h3, if_neg h4, hfn]

/-- Witness for C4 at the concrete prefix RNG, cash 1000,
returns [1/10, 1/5], one simulation. -/
theorem c4_execution_zero_noise_witness :
    MonteCarloEngine.analyze (fun _ => 0) constRNG () 1000
        (some [1/10, 1/5]) none .execution 1 0 0 =
      MonteCarloEngine.analyze (fun _ => 0) constRNG () 1000
        (some [1/10, 1/5]) none .returns 1 0 0 :=
  c4_execution_zero_noise_equals_returns (fun _ => 0) constRNG () 1000 [1/10, 1/5] 1
    (by norm_num) (by decide) (by decide)

/-- Claim C5: `PaperBroker.execute_order` raises exactly when a BUY
cost `price * (1 + slippage_pct) * quantity` exceeds the cash or a SELL
quantity exceeds the position; on a raise the broker state is the
unchanged input state (atomic failure), and on success cash and
position are updated together. -/
theorem c5_execute_order_error_iff_and_atomic (b : PaperBroker) (o : Order) :
    ((∃ e, (b.execute_order o).2 = .error e) ↔
      (o.side = .buy ∧ o.price * (1 + b.slippage_pct) * o.quantity > b.cash) ∨
      (o.side = .sell ∧ o.quantity > b.position_size)) ∧
    (∀ e, (b.execute_order o).2 = .error e → (b.execute_order o).1 = b) ∧
    (o.side = .buy → o.price * (1 + b.slippage_pct) * o.quantity ≤ b.cash →
      (b.execute_order o).1 =
        { cash := b.cash - o.price * (1 + b.slippage_pct) * o.quantity,
          position_size := b.position_size + o.quantity,
          slippage_pct := b.slippage_pct } ∧
      (b.execute_order o).2 =
        .ok { side := .buy, quantity := o.quantity, price := o.price * (1 + b.slippage_pct),
              cash_change := -(o.price * (1 + b.slippage_pct) * o.quantity),
              position_change := o.quantity }) ∧
    (o.side = .sell → o.quantity ≤ b.position_size →
      (b.execute_order o).1 =
        { cash := b.cash + o.price * (1 - b.slippage_pct) * o.quantity,
          position_size := b.position_size - o.quantity,
          slippage_pct := b.slippage_pct } ∧
      (b.execute_order o).2 =
        .ok { side := .sell, quantity := o.quantity, price := o.price * (1 - b.slippage_pct),
              cash_change := o.price * (1 - b.slippage_pct) * o.quantity,
              position_change := -o.quantity }) := by
  obtain ⟨side, qty, price⟩ := o
  cases side <;>
    simp only [PaperBroker.execute_order] <;>
    split <;>
    simp_all <;>
    constructor <;>
    intro h <;>
    linarith

/-- Witness for C5: buying 2 shares at price 10 from cash 100 and
position 5 succeeds and moves the broker to cash 80, position 7. -/
theorem c5_execute_order_witness :
    (PaperBroker.execute_order ⟨100, 5, 0⟩ { side := .buy, quantity := 2, price := 10 }).1 =
      ⟨80, 7, 0⟩ := by
  have h := (c5_execute_order_error_iff_and_atomic ⟨100, 5, 0⟩
    { side := .buy, quantity := 2, price := 10 }).2.2.1 rfl (by norm_num)
  rw [h.1]
  norm_num

/-- Claim C6, counterexample: with two ranking entries that share the
name "A", equal-mode `compute_weights` returns the one-key dict
`({"A": 1/2})` whose values sum to 1/2, not 1 within 1e-9 — the claim
fails for ranking-result lists with duplicate strategy names. -/
theorem c6_weights_sum_counterexample :
    CapitalAllocator.compute_weights .equal
      [{ strategy_name := "A", sharpe_ratio := 1, robustness := 1 },
       { strategy_name := "A", sharpe_ratio := 1, robustness := 1 }] =
      .ok [("A", 1/2)] ∧
    (dvalues [("A", (1 : ℚ)/2)]).sum = 1/2 ∧
    ¬ |(dvalues [("A", (1 : ℚ)/2)]).sum - 1| ≤ 1/1000000000 := by
  refine ⟨?_, ?_, ?_⟩
  · norm_num [CapitalAllocator.compute_weights, CapitalAllocator.equal_weights,
      dinsert, List.foldl]
  · norm_num [dvalues]
  · have h : (dvalues [("A", (1 : ℚ)/2)]).sum = 1/2 := by norm_num [dvalues]
    rw [h, show |(1:ℚ)/2 - 1| = 1/2 from by
      rw [abs_of_nonpos (by norm_num)]
      norm_num]
    norm_num

/-- Claim C6, amended: for every allocator mode and every non-empty
ranking-result list with pairwise-distinct strategy names,
`compute_weights` returns exactly the spec weight mapping — equal
weights, or metric-proportional weights over strictly positive metrics
with equal fallback — and its values sum to exactly 1. -/
theorem c6_weights_sum_amended (mode : AllocMode) (rs : List RankEntry) (hne : rs ≠ [])
    (hnd : (rs.map (fun r => r.strategy_name)).Nodup) :
    CapitalAllocator.compute_weights mode rs = .ok (specWeights mode rs) ∧
    (dvalues (specWeights mode rs)).sum = 1 := by
  have hlenQ : (rs.length : ℚ) ≠ 0 := by
    simpa using fun h => hne (List.length_eq_zero.mp h)
  have hnotempty : ¬ rs.isEmpty := by simpa [List.isEmpty_iff] using hne
  have hfold : ∀ f : RankEntry → ℚ,
      rs.foldl (fun d r => dinsert d r.strategy_name (f r)) []
        = rs.map (fun r => (r.strategy_name, f r)) := by
    intro f
    simpa using foldl_dinsert f rs [] (by simpa using hnd)
  cases mode with
  | equal =>
      constructor
      · rw [CapitalAllocator.compute_weights, if_neg hnotempty]
        rw [CapitalAllocator.equal_weights, hfold]
        rfl
      · simp only [specWeights, dvalues, List.map_map, Function.comp_def]
        rw [sum_map_const]
        field_simp
  | sharpe =>
      obtain ⟨h1, h2⟩ := c6_metric (fun r => r.sharpe_ratio) rs hne hnd
      constructor
      · rw [CapitalAllocator.compute_weights, if_neg hnotempty]
        rw [CapitalAllocator.sharpe_weights, h1]
        rfl
      · exact h2
  | robustness =>
      obtain ⟨h1, h2⟩ := c6_metric (fun r => r.robustness) rs hne hnd
      constructor
      · rw [CapitalAllocator.compute_weights, if_neg hnotempty]
        rw [CapitalAllocator.robustness_weights, h1]
        rfl
      · exact h2

/-- Witness for C6 (amended) at the spec scenario, sharpe mode with
Sharpes A: 1, B: 3, C: 2. -/
theorem c6_weights_sum_amended_witness :
    CapitalAllocator.compute_weights .sharpe
        [{ strategy_name := "A", sharpe_ratio := 1, robustness := 0 },
         { strategy_name := "B", sharpe_ratio := 3, robustness := 0 },
         { strategy_name := "C", sharpe_ratio := 2, robustness := 0 }] =
      .ok (specWeights .sharpe
        [{ strategy_name := "A", sharpe_ratio := 1, robustness := 0 },
         { strategy_name := "B", sharpe_ratio := 3, robustness := 0 },
         { strategy_name := "C", sharpe_ratio := 2, robustness := 0 }]) ∧
    (dvalues (specWeights .sharpe
        [{ strategy_name := "A", sharpe_ratio := 1, robustness := 0 },
         { strategy_name := "B", sharpe_ratio := 3, robustness := 0 },
         { strategy_name := "C", sharpe_ratio := 2, robustness := 0 }])).sum = 1 :=
  c6_weights_sum_amended .sharpe
    [{ strategy_name := "A", sharpe_ratio := 1, robustness := 0 },
     { strategy_name := "B", sharpe_ratio := 3, robustness := 0 },
     { strategy_name := "C", sharpe_ratio := 2, robustness := 0 }]
    (List.cons_ne_nil _ _) (by decide)

/-- Claim C7: for every RNG whose `randint` honours its closed-interval
contract (hence any seed), every mutation rate in [0, 1] and every
genome accepted by `validate_genome`, `MutationEngine.mutate` succeeds
and returns a genome whose parameters all lie inside their declared
`GENOME_BOUNDS` intervals, with `short < long` for the moving-average
family. -/
theorem c7_mutate_bounds_and_ma_invariant {σ : Type} (rng : RNGM σ)
    (mutation_rate : ℚ) (g : Genome) (s : σ)
    (hri : rng.IntRange) (_hrate : 0 ≤ mutation_rate ∧ mutation_rate ≤ 1)
    (hvalid : validate_genome g = .ok ()) :
    ∃ g' s', MutationEngine.mutate rng mutation_rate g s = .ok (g', s') ∧
      genome_in_bounds g' ∧ ma_invariant g' := by
  cases g with
  | moving_average short long =>
      have hA : 2 ≤ short ∧ short ≤ 50 := by
        by_contra h
        simp [validate_genome, h] at hvalid
      have hB : 10 ≤ long ∧ long ≤ 200 := by
        by_contra h
        simp [validate_genome, hA, h] at hvalid
      set p1 := resample_param rng mutation_rate 2 50 short s with hp1
      set p2 := resample_param rng mutation_rate 10 200 long p1.2 with hp2
      have h1 := resample_param_bounds rng hri mutation_rate 2 50 short s (by omega) hA
      have h2 := resample_param_bounds rng hri mutation_rate 10 200 long p1.2 (by omega) hB
      refine ⟨(ma_repair rng p1.1 p2.1 p2.2).1, (ma_repair rng p1.1 p2.1 p2.2).2, ?_, ?_⟩
      · simp only [MutationEngine.mutate, hvalid, Except.bind, bind, ← hp1, ← hp2]
      · exact ma_repair_ok rng hri p1.1 p2.1 p2.2 (hp1 ▸ h1) (hp2 ▸ h2)
  | rsi period overbought oversold =>
      have hA : 5 ≤ period ∧ period ≤ 30 := by
        by_contra h
        simp [validate_genome, h] at hvalid
      have hB : 60 ≤ overbought ∧ overbought ≤ 90 := by
        by_contra h
        simp [validate_genome, hA, h] at hvalid
      have hC : 10 ≤ oversold ∧ oversold ≤ 40 := by
        by_contra h
        simp [validate_genome, hA, hB, h] at hvalid
      set p1 := resample_param rng mutation_rate 5 30 period s with hp1
      set p2 := resample_param rng mutation_rate 60 90 overbought p1.2 with hp2
      set p3 := resample_param rng mutation_rate 10 40 oversold p2.2 with hp3
      have h1 := resample_param_bounds rng hri mutation_rate 5 30 period s (by omega) hA
      have h2 := resample_param_bounds rng hri mutation_rate 60 90 overbought p1.2 (by omega) hB
      have h3 := resample_param_bounds rng hri mutation_rate 10 40 oversold p2.2 (by omega) hC
      rw [← hp1] at h1
      rw [← hp2] at h2
      rw [← hp3] at h3
      refine ⟨.rsi p1.1 p2.1 p3.1, p3.2, ?_, ?_, ?_⟩
      · simp only [MutationEngine.mutate, hvalid, Except.bind, bind, ← hp1, ← hp2, ← hp3]
      · simp only [genome_in_bounds]
        omega
      · simp only [ma_invariant]
  | breakout window =>
      have hA : 5 ≤ window ∧ window ≤ 60 := by
        by_contra h
        simp [validate_genome, h] at hvalid
      set p1 := resample_param rng mutation_rate 5 60 window s with hp1
      have h1 := resample_param_bounds rng hri mutation_rate 5 60 window s (by omega) hA
      rw [← hp1] at h1
      refine ⟨.breakout p1.1, p1.2, ?_, ?_, ?_⟩
      · simp only [MutationEngine.mutate, hvalid, Except.bind, bind, ← hp1]
      · simp only [genome_in_bounds]
        omega
      · simp only [ma_invariant]

/-- Witness for C7 at the lower-bound RNG, rate 1/2 and an RSI genome. -/
theorem c7_mutate_witness :
    ∃ g' s', MutationEngine.mutate loRNG (1/2) (.rsi 5 60 10) () = .ok (g', s') ∧
      genome_in_bounds g' ∧ ma_invariant g' :=
  c7_mutate_bounds_and_ma_invariant loRNG (1/2) (.rsi 5 60 10) ()
    (fun lo hi s h => ⟨le_refl lo, h⟩) ⟨by norm_num, by norm_num⟩ rfl

/-- Claim C8 (code bug): the spec says every sample-variance statistic
returns 0.0 for n <= 1, so stability analysis over a candle set
yielding exactly one regime window should report
`sharpe_variance = 0.0`.  The stability engine divides by `n - 1`
without the guard its sibling engines have: for any per-window backtest
function and any two candles with `window_size = 2` (one regime
window), `analyze_strategy` raises `ZeroDivisionError` instead. -/
theorem c8_stability_single_window_zero_division
    (runBT : List Candle → SliceReport) (a b : Candle) :
    analyze_strategy runBT [a, b] 2 = .error .zeroDivisionError := by
  have hsplit : split_into_time_windows [a, b] 2 = .ok [[a, b]] := by
    norm_num [split_into_time_windows]
    rw [splitLoop, splitLoop]
    norm_num
  rw [analyze_strategy, hsplit]
  norm_num [pydiv, Except.bind, Except.pure, bind, pure]

/-- Claim C9: `PortfolioEngine.run` resets only the aggregated
`portfolio_equity_curve`; brokers, gateways and strategy instances
persist across calls.  With a buy-then-sell strategy over closes
100, 110 and capital 1000, the first run produces curve [1000, 1100]
and two trades; the second run over the same candles starts from the
persisted cash 1100, flat position and already-advanced strategy, so it
produces curve [1100, 1100] (not the fresh [1000, 1100]) and adds no
trades, while its curve length shows the aggregated curve alone was
reset. -/
theorem c9_portfolio_engine_state_persists :
    c9_run2 = .ok
      ({ portfolio_equity := 1100,
         portfolio_equity_curve := [1000, 1100],
         strategies := [("BuyThenSell",
           { cash := 1100, position_size := 0, equity := 1100,
             trade_history := [{ type := .buy, price := 100, shares := 10, cash_after := 0 },
               { type := .sell, price := 110, shares := 10, cash_after := 1100 }] })] },
       { portfolio_equity := 1100,
         portfolio_equity_curve := [1100, 1100],
         strategies := [("BuyThenSell",
           { cash := 1100, position_size := 0, equity := 1100,
             trade_history := [{ type := .buy, price := 100, shares := 10, cash_after := 0 },
               { type := .sell, price := 110, shares := 10, cash_after := 1100 }] })] }) := by
  norm_num [c9_run2, c9_candles, buyThenSell, PortfolioEngine.init, PortfolioEngine.run,
    PortfolioEngine.stepCandle, ExecutionGateway.on_candle, ExecutionGateway.equityAt,
    PaperBroker.execute_order, pydiv, List.foldlM, List.mapM, List.mapM.loop,
    Except.bind, Except.pure, bind, pure]

/-- Claim C10: with zero broker slippage, nonnegative cash and
position, a positive close and any (optionally present, nonnegative)
risk-manager cap, `on_candle` succeeds and preserves the mark-to-market
equity at that candle's close — a BUY converts cash into position and a
SELL converts position into cash at exactly the close price — and
appends exactly that equity to the curve. -/
theorem c10_on_candle_preserves_equity {S : Type} (gen : S → Candle → Signal × S)
    (rm : Option RiskManager) (g : ExecutionGateway S) (c : Candle)
    (hs : g.broker.slippage_pct = 0) (hc : 0 ≤ g.broker.cash)
    (hp : 0 ≤ g.broker.position_size) (hprice : 0 < c.close)
    (hrm : ∀ r ∈ rm, 0 ≤ r.max_position_pct) :
    ∃ g', ExecutionGateway.on_candle gen rm g c = .ok g' ∧
      g'.broker.cash + g'.broker.position_size * c.close
        = g.broker.cash + g.broker.position_size * c.close ∧
      g'.equity_curve = g.equity_curve ++
        [g.broker.cash + g.broker.position_size * c.close] := by
  obtain ⟨st0, ⟨cash, pos, slip⟩, gs, cp, ec, th⟩ := g
  simp only at hs hc hp
  subst hs
  simp only [ExecutionGateway.on_candle, ExecutionGateway.equityAt]
  rcases hsig : gen st0 c with ⟨sig, st⟩
  have hne : c.close ≠ 0 := ne_of_gt hprice
  have hequity : (0 : ℚ) ≤ cash + pos * c.close :=
    add_nonneg hc (mul_nonneg hp hprice.le)
  cases sig with
  | hold =>
      cases gs <;>
        exact ⟨_, rfl, by simp, by simp⟩
  | sell =>
      cases gs with
      | FLAT => exact ⟨_, rfl, by simp, by simp⟩
      | LONG =>
          simp only [PaperBroker.execute_order, Except.bind, bind]
          rw [if_neg (lt_irrefl pos)]
          have hval : cash + c.close * (1 - 0) * pos + (pos - pos) * c.close
              = cash + pos * c.close := by ring
          refine ⟨_, rfl, ?_, ?_⟩
          · simp only
            ring
          · simp only
            rw [hval]
  | buy =>
      cases gs with
      | LONG => exact ⟨_, rfl, by simp, by simp⟩
      | FLAT =>
          simp only [pydiv, if_neg hne, Except.bind, bind]
          cases rm with
          | none =>
              obtain ⟨hexec, heq⟩ :=
                exec_buy_preserve cash pos (cash / c.close) c.close hprice le_rfl
              simp only [hexec]
              refine ⟨_, rfl, ?_, ?_⟩
              · simpa using heq
              · simp only
                rw [heq]
          | some r =>
              simp only [RiskManager.adjust_order, if_neg (not_lt.mpr hequity)]
              simp only [if_pos hprice]
              by_cases hadj : min (cash / c.close)
                  ((cash + pos * c.close) * r.max_position_pct / c.close) ≥ cash / c.close
              · rw [if_pos hadj]
                obtain ⟨hexec, heq⟩ :=
                  exec_buy_preserve cash pos (cash / c.close) c.close hprice le_rfl
                simp only [ne_eq, not_true_eq_false, if_false, ite_self, Except.bind, bind, hexec]
                refine ⟨_, rfl, ?_, ?_⟩
                · simpa using heq
                · try simp only
                  rw [heq]
              · rw [if_neg hadj]
                obtain ⟨hexec, heq⟩ :=
                  exec_buy_preserve cash pos
                    (min (cash / c.close) ((cash + pos * c.close) * r.max_position_pct / c.close))
                    c.close hprice (min_le_left _ _)
                simp only [ne_eq, not_true_eq_false, if_false, ite_self, Except.bind, bind, hexec]
                refine ⟨_, rfl, ?_, ?_⟩
                · simpa using heq
                · try simp only
                  rw [heq]

/-- Witness for C10: an always-BUY strategy on a flat gateway with cash
1000 at close 100, no risk manager. -/
theorem c10_on_candle_witness :
    ∃ g', ExecutionGateway.on_candle (fun (u : Unit) (_ : Candle) => (Signal.buy, u)) none
        { strat := (), broker := { cash := 1000, position_size := 0, slippage_pct := 0 },
          state := .FLAT, current_price := 0, equity_curve := [], trade_history := [] }
        ⟨100⟩ = .ok g' ∧
      g'.broker.cash + g'.broker.position_size * (100 : ℚ) = 1000 + 0 * 100 ∧
      g'.equity_curve = [] ++ [1000 + 0 * 100] := by
  have h := c10_on_candle_preserves_equity (fun (u : Unit) (_ : Candle) => (Signal.buy, u))
    none
    { strat := (), broker := { cash := 1000, position_size := 0, slippage_pct := 0 },
      state := .FLAT, current_price := 0, equity_curve := [], trade_history := [] }
    ⟨100⟩ rfl (by norm_num) le_rfl (by norm_num) (by simp)
  simpa using h

end Quant
